import Mathlib

/-
Verification development for the statping monitoring engine.

The Go source is shallowly embedded: time is modelled in whole seconds as
Nat, the SQLite record store as an in-memory structure of lists, and the
two check loops (internal/checker/checker.go and internal/tray/tray.go)
as pure state-transition functions that also return the list of
notifications they emit.
-/

namespace Statping

/-! ## Configuration constants (internal/config/config.go) -/

def DefaultCheckInterval : Int := 60

def DefaultTimeout : Int := 10

def DefaultMaxFailures : Int := 3

def NotificationCooldown : Nat := 300

/-! ## Data model (internal/storage/models.go) -/

/-- Monitor row. Go `int` fields are embedded as Int, timestamps as Nat
seconds, and the free-form status string is kept as a String exactly as in
the source (values in play: unknown, up, down). -/
structure Monitor where
  id : Nat
  name : String
  url : String
  enabled : Bool
  checkInterval : Int
  expectedCodes : String
  keywords : String
  timeout : Int
  currentStatus : String
  consecutiveFails : Int
  lastCheckAt : Option Nat
deriving Repr, DecidableEq

/-- CheckResult row: append-only, one per executed probe. -/
structure CheckResult where
  monitorID : Nat
  statusCode : Int
  responseTime : Int
  success : Bool
  errorMessage : String
  createdAt : Nat
deriving Repr, DecidableEq

/-- Incident row. resolvedAt = none means the incident is still active. -/
structure Incident where
  id : Nat
  monitorID : Nat
  startedAt : Nat
  resolvedAt : Option Nat
  errorMessage : String
  notified : Bool
  recoveryNotified : Bool
deriving Repr, DecidableEq

/-- The record store: incident and check-result tables plus the next
auto-increment incident primary key. Incidents are kept in primary-key
(insertion) order, as gorm returns them. -/
structure DB where
  incidents : List Incident
  results : List CheckResult
  nextIncidentID : Nat
deriving Repr, DecidableEq

/-! ## Record-store operations (internal/storage/database.go) -/

/-- CreateCheckResult: append-only insert. -/
def DB.createCheckResult (db : DB) (r : CheckResult) : DB :=
  { db with results := db.results ++ [r] }

/-- CreateIncident: insert with a fresh auto-increment primary key;
returns the stored row as gorm fills the ID back into the struct. -/
def DB.createIncident (db : DB) (i : Incident) : DB × Incident :=
  let stored := { i with id := db.nextIncidentID }
  ({ db with incidents := db.incidents ++ [stored],
             nextIncidentID := db.nextIncidentID + 1 }, stored)

/-- GetActiveIncident: first row (primary-key order) with this monitor id
and a NULL resolved_at. -/
def DB.getActiveIncident (db : DB) (monitorID : Nat) : Option Incident :=
  db.incidents.find? (fun i => i.monitorID == monitorID && i.resolvedAt.isNone)

/-- ResolveIncident: a single-column UPDATE of resolved_at on the row with
the given primary key. -/
def DB.resolveIncident (db : DB) (id : Nat) (now : Nat) : DB :=
  { db with incidents :=
      db.incidents.map (fun i => if i.id == id then { i with resolvedAt := some now } else i) }

/-- UpdateIncident: gorm Save writes EVERY field of the passed struct over
the row with the same primary key, including resolvedAt. -/
def DB.updateIncident (db : DB) (i : Incident) : DB :=
  { db with incidents := db.incidents.map (fun j => if j.id == i.id then i else j) }

/-! ## Parsing helpers (internal/storage/database.go, ParseExpectedCodes /
ParseKeywords), over explicit character lists so that everything reduces
by kernel computation. -/

/-- Whitespace test covering the ASCII space characters relevant here
(strings.TrimSpace also folds exotic Unicode spaces, which cannot occur
in the claims' inputs). -/
def isSpaceChar (c : Char) : Bool :=
  c == ' ' || c == '\t' || c == '\n' || c == '\r'

/-- strings.Split with a one-character separator. -/
def splitOnChar (sep : Char) : List Char → List (List Char)
  | [] => [[]]
  | c :: rest =>
    if c == sep then [] :: splitOnChar sep rest
    else
      match splitOnChar sep rest with
      | [] => [[c]]
      | h :: t => (c :: h) :: t

/-- strings.TrimSpace. -/
def trimChars (l : List Char) : List Char :=
  ((l.dropWhile isSpaceChar).reverse.dropWhile isSpaceChar).reverse

/-- Numeric value of a digit run. -/
def digitsToNat (ds : List Char) : Nat :=
  ds.foldl (fun a c => a * 10 + (c.toNat - 48)) 0

/-- fmt.Sscanf with verb d on a string: an optional sign followed by the
leading run of decimal digits; anything after the digits is ignored. When
no digit can be read the scan fails and the output variable keeps its Go
zero value 0, which is what the caller observes. -/
def sscanfD (l : List Char) : Int :=
  match l with
  | '-' :: rest =>
    let ds := rest.takeWhile Char.isDigit
    if ds.isEmpty then 0 else -(digitsToNat ds : Int)
  | '+' :: rest =>
    let ds := rest.takeWhile Char.isDigit
    if ds.isEmpty then 0 else (digitsToNat ds : Int)
  | _ =>
    let ds := l.takeWhile Char.isDigit
    if ds.isEmpty then 0 else (digitsToNat ds : Int)

/-- ParseExpectedCodes: empty input defaults to the single code 200; each
comma-separated entry is trimmed and scanned with Sscanf d; entries whose
scanned value is positive are appended in order; if nothing survives the
default single code 200 is returned. -/
def ParseExpectedCodes (codes : String) : List Int :=
  if codes = "" then [200]
  else
    let parts := splitOnChar ',' codes.toList
    let result := parts.foldl
      (fun acc p =>
        let code := sscanfD (trimChars p)
        if 0 < code then acc ++ [code] else acc) []
    if result = [] then [200] else result

/-- ParseKeywords: split on commas, trim each entry, drop empties. -/
def ParseKeywords (keywords : String) : List String :=
  if keywords = "" then []
  else
    (splitOnChar ',' keywords.toList).foldl
      (fun acc p =>
        let p := trimChars p
        if p.isEmpty then acc else acc ++ [String.mk p]) []

/-! ## Keyword matching (internal/checker/checker.go, performCheck lines
172-183). The pattern is QuoteMeta of the keyword behind a
case-insensitivity flag, so matching is a case-insensitive literal
substring search (the quoted pattern can never make the regex engine
fail). Case folding is the ASCII one, which agrees with the regexp
engine's folding on the inputs at issue. -/

/-- Whether the pattern list is a leading segment of the text list. -/
def leadsList (pattern text : List Char) : Bool :=
  match pattern, text with
  | [], _ => true
  | _ :: _, [] => false
  | p :: ps, t :: ts => p == t && leadsList ps ts

/-- Whether the pattern occurs contiguously anywhere in the text. -/
def occursIn (text pattern : List Char) : Bool :=
  if leadsList pattern text then true
  else
    match text with
    | [] => false
    | _ :: ts => occursIn ts pattern

/-- regexp.MatchString of QuoteMeta(keyword) under the case-insensitive
flag: lower-case both sides and search for a contiguous occurrence. -/
def caseInsensitiveContains (body keyword : String) : Bool :=
  occursIn (body.toList.map Char.toLower) (keyword.toList.map Char.toLower)

/-- The keyword loop of performCheck: walk the parsed keywords in order
and report the first one that does not match the body (the probe then
fails naming that keyword); none means every keyword matched. -/
def findMissingKeyword (keywords : List String) (body : String) : Option String :=
  match keywords with
  | [] => none
  | k :: rest =>
    if caseInsensitiveContains body k then findMissingKeyword rest body else some k

/-! ## Configuration normalization (internal/checker/checker.go) -/

/-- startMonitor lines 91-94: the tick interval in seconds; any interval
below one second falls back to the default. -/
def effectiveCheckInterval (checkInterval : Int) : Int :=
  if checkInterval < 1 then DefaultCheckInterval else checkInterval

/-- performCheck lines 127-130 (and tray.go checkMonitor lines 222-225):
the request timeout in seconds; the default is substituted only when the
configured value is exactly zero. -/
def effectiveTimeout (timeout : Int) : Int :=
  if timeout = 0 then DefaultTimeout else timeout

/-! ## Notifications (internal/notifier/notifier.go): the two-call
fire-and-forget gateway, recorded as emitted events. -/

inductive Notification
  | down (name url errorMsg : String)
  | recovery (name url : String)
deriving Repr, DecidableEq

/-! ## Status tracking (internal/checker/checker.go, recordSuccess and
recordFailure) -/

/-- The per-monitor scheduler state relevant to notification gating: the
lastNotified timestamp of monitorState. Go initializes it to the zero
time, for which time.Since is astronomically large, so the gate passes;
that initial value is modelled as none. -/
structure CheckerMonState where
  lastNotified : Option Nat
deriving Repr, DecidableEq

/-- The cooldown gate of recordFailure: time.Since(lastNotified) in
seconds must reach NotificationCooldown. -/
def cooldownOk (lastNotified : Option Nat) (now : Nat) : Bool :=
  match lastNotified with
  | none => true
  | some t => NotificationCooldown ≤ now - t

/-- The result of one Status Tracker evaluation: the scheduler state, the
record store, the written-back monitor, and the notifications emitted
during the evaluation (timestamped). -/
structure EvalResult where
  checker : CheckerMonState
  db : DB
  monitor : Monitor
  events : List (Nat × Notification)
deriving Repr, DecidableEq

/-- recordSuccess (checker.go lines 188-218). Note the faithful embedding
of the recovery path: ResolveIncident is a column update of resolved_at,
but the following UpdateIncident saves the in-memory incident struct -
whose resolvedAt is still none - over the whole row. -/
def recordSuccess (cs : CheckerMonState) (db : DB) (m : Monitor)
    (statusCode responseTime : Int) (now : Nat) : EvalResult :=
  let db1 := db.createCheckResult
    { monitorID := m.id, statusCode := statusCode, responseTime := responseTime,
      success := true, errorMessage := "", createdAt := now }
  let m1 := { m with currentStatus := "up", consecutiveFails := 0, lastCheckAt := some now }
  if m.currentStatus = "down" then
    match db1.getActiveIncident m.id with
    | some incident =>
      let db2 := db1.resolveIncident incident.id now
      if incident.recoveryNotified then
        { checker := cs, db := db2, monitor := m1, events := [] }
      else
        { checker := cs,
          db := db2.updateIncident { incident with recoveryNotified := true },
          monitor := m1,
          events := [(now, Notification.recovery m.name m.url)] }
    | none => { checker := cs, db := db1, monitor := m1, events := [] }
  else { checker := cs, db := db1, monitor := m1, events := [] }

/-- recordFailure (checker.go lines 220-277). The monitorState lookup in
the scheduler map is modelled as present (the running task owns one). -/
def recordFailure (cs : CheckerMonState) (db : DB) (m : Monitor)
    (statusCode : Int) (errorMsg : String) (now : Nat) : EvalResult :=
  let db1 := db.createCheckResult
    { monitorID := m.id, statusCode := statusCode, responseTime := 0,
      success := false, errorMessage := errorMsg, createdAt := now }
  let m1 := { m with consecutiveFails := m.consecutiveFails + 1, lastCheckAt := some now }
  if DefaultMaxFailures ≤ m1.consecutiveFails then
    let m2 := { m1 with currentStatus := "down" }
    if m.currentStatus = "down" then
      match db1.getActiveIncident m.id with
      | some incident =>
        let db2 := db1.updateIncident { incident with errorMessage := errorMsg }
        if cooldownOk cs.lastNotified now then
          { checker := { lastNotified := some now }, db := db2, monitor := m2,
            events := [(now, Notification.down m.name m.url errorMsg)] }
        else { checker := cs, db := db2, monitor := m2, events := [] }
      | none => { checker := cs, db := db1, monitor := m2, events := [] }
    else
      let db2 := (db1.createIncident
        { id := 0, monitorID := m.id, startedAt := now, resolvedAt := none,
          errorMessage := errorMsg, notified := false, recoveryNotified := false }).1
      if cooldownOk cs.lastNotified now then
        { checker := { lastNotified := some now }, db := db2, monitor := m2,
          events := [(now, Notification.down m.name m.url errorMsg)] }
      else { checker := cs, db := db2, monitor := m2, events := [] }
  else { checker := cs, db := db1, monitor := m1, events := [] }

/-- A classified probe outcome as handed to the Status Tracker. -/
inductive Outcome
  | ok (statusCode responseTime : Int)
  | fail (statusCode responseTime : Int) (errorMsg : String)
deriving Repr, DecidableEq

/-- Dispatch one outcome to the Status Tracker. The primary checker
stores responseTime 0 on failures, so the failure latency is unused
here. -/
def evalOutcome (cs : CheckerMonState) (db : DB) (m : Monitor)
    (o : Outcome) (now : Nat) : EvalResult :=
  match o with
  | Outcome.ok sc rt => recordSuccess cs db m sc rt now
  | Outcome.fail sc _ e => recordFailure cs db m sc e now

/-- Run the primary checker over a chronological list of timestamped
outcomes for one monitor, collecting the notifications in order. -/
def runChecker : (CheckerMonState × DB × Monitor) → List (Nat × Outcome) →
    ((CheckerMonState × DB × Monitor) × List (Nat × Notification))
  | s, [] => (s, [])
  | (cs, db, m), (t, o) :: rest =>
    let r := evalOutcome cs db m o t
    let res := runChecker (r.checker, r.db, r.monitor) rest
    (res.1, r.events ++ res.2)

/-- Timestamps of the down notifications among a list of emitted
events. -/
def downTimes (evts : List (Nat × Notification)) : List Nat :=
  evts.filterMap (fun p =>
    match p.2 with
    | Notification.down _ _ _ => some p.1
    | _ => none)

/-! ## The secondary check surface (internal/tray/tray.go,
checkAllMonitors lines 149-210): the per-monitor body of the tray loop.
The slow branch (latency above 1000 ms) performs exactly the same state
effects as the fast-success branch, so both are the ok outcome. The tray
has no cooldown state: NotifyDown fires whenever the threshold crossing
flips the status, NotifyRecovery whenever status flips back. -/

def trayEvaluate (db : DB) (m : Monitor) (o : Outcome) (now : Nat) :
    DB × Monitor × List (Nat × Notification) :=
  match o with
  | Outcome.fail sc rt e =>
    let db1 := db.createCheckResult
      { monitorID := m.id, statusCode := sc, responseTime := rt,
        success := false, errorMessage := e, createdAt := now }
    let m1 := { m with consecutiveFails := m.consecutiveFails + 1 }
    if DefaultMaxFailures ≤ m1.consecutiveFails then
      let m2 := { m1 with currentStatus := "down", lastCheckAt := some now }
      if m.currentStatus = "down" then (db1, m2, [])
      else (db1, m2, [(now, Notification.down m.name m.url e)])
    else (db1, { m1 with lastCheckAt := some now }, [])
  | Outcome.ok sc rt =>
    let db1 := db.createCheckResult
      { monitorID := m.id, statusCode := sc, responseTime := rt,
        success := true, errorMessage := "", createdAt := now }
    let m1 := { m with currentStatus := "up", consecutiveFails := 0, lastCheckAt := some now }
    if m.currentStatus = "down" then
      (db1, m1, [(now, Notification.recovery m.name m.url)])
    else (db1, m1, [])

/-- Run the tray check loop over a chronological list of timestamped
outcomes for one monitor. -/
def runTray : (DB × Monitor) → List (Nat × Outcome) →
    ((DB × Monitor) × List (Nat × Notification))
  | s, [] => (s, [])
  | (db, m), (t, o) :: rest =>
    let r := trayEvaluate db m o t
    let res := runTray (r.1, r.2.1) rest
    (res.1, r.2.2 ++ res.2)

/-! ## Scheduler lifecycle (internal/checker/checker.go: runMonitor, Stop,
RemoveMonitor) as a small-step transition system over interleavings. One
lightweight task per monitor; a task is idle between ticks, busy while
performCheck runs, and exited once its select loop has returned. Stop
closes every stop channel and then blocks on the WaitGroup, which is the
stopDone step: it fires only once every task has exited. RemoveMonitor
closes the task's stop channel and returns at once, without joining the
task - the removeDone step has no enabling condition on the task's
phase. A signalled task may still win another tick in its select before
it observes the closed channel, so beginCheck stays enabled for any idle
task. -/

inductive Phase
  | idle
  | busy
  | exited
deriving Repr, DecidableEq

/-- Scheduler state: task phases per monitor id, the ids whose tasks were
signalled by RemoveMonitor, whether Stop has broadcast its signal,
whether Stop has returned from the WaitGroup, and the CheckResult rows
appended so far as (monitor id, time) pairs. -/
structure Sched where
  phases : List (Nat × Phase)
  removed : List Nat
  stopClosed : Bool
  stopReturned : Bool
  records : List (Nat × Nat)
deriving Repr, DecidableEq

inductive SchedEv
  | beginCheck (id : Nat)
  | endCheck (id : Nat) (t : Nat)
  | taskExit (id : Nat)
  | removeDone (id : Nat)
  | stopSignal
  | stopDone
deriving Repr, DecidableEq

def phaseOf (s : Sched) (id : Nat) : Option Phase :=
  (s.phases.find? (fun p => p.1 == id)).map Prod.snd

def setPhase (s : Sched) (id : Nat) (ph : Phase) : Sched :=
  { s with phases := s.phases.map (fun p => if p.1 == id then (p.1, ph) else p) }

/-- One interleaving step; none when the event is not enabled in this
state. endCheck is where performCheck returns and its CheckResult row is
appended. -/
def schedStep (s : Sched) : SchedEv → Option Sched
  | SchedEv.beginCheck id =>
    if phaseOf s id = some Phase.idle then some (setPhase s id Phase.busy) else none
  | SchedEv.endCheck id t =>
    if phaseOf s id = some Phase.busy then
      some { setPhase s id Phase.idle with records := s.records ++ [(id, t)] }
    else none
  | SchedEv.taskExit id =>
    if phaseOf s id = some Phase.idle ∧ (s.stopClosed = true ∨ id ∈ s.removed) then
      some (setPhase s id Phase.exited)
    else none
  | SchedEv.removeDone id => some { s with removed := s.removed ++ [id] }
  | SchedEv.stopSignal => some { s with stopClosed := true }
  | SchedEv.stopDone =>
    if s.stopClosed = true ∧ ∀ p ∈ s.phases, p.2 = Phase.exited then
      some { s with stopReturned := true }
    else none

/-- Run a list of interleaving events; none if any event is not
enabled. -/
def schedRun : Sched → List SchedEv → Option Sched
  | s, [] => some s
  | s, e :: rest =>
    match schedStep s e with
    | some s2 => schedRun s2 rest
    | none => none

/-! ## Invariants -/

/-- States of a monitor reachable by the primary checker: the status is
down exactly when the consecutive-failure count has reached the
threshold, and while down an active incident for the monitor exists in
the store. It holds for a freshly created monitor and is preserved by
both Status Tracker evaluations. -/
def Inv (db : DB) (m : Monitor) : Prop :=
  (m.currentStatus = "down" ↔ DefaultMaxFailures ≤ m.consecutiveFails) ∧
  (m.currentStatus = "down" →
    ∃ i ∈ db.incidents, i.monitorID = m.id ∧ i.resolvedAt = none)

/-- Once Stop has returned from its WaitGroup barrier, every task has
exited. -/
def StopInv (s : Sched) : Prop :=
  s.stopReturned = true → ∀ p ∈ s.phases, p.2 = Phase.exited

/-! ## Shared sample states for concrete evaluations -/

/-- A freshly configured monitor. -/
def sampleMon : Monitor :=
  { id := 1, name := "site", url := "http://x", enabled := true,
    checkInterval := 60, expectedCodes := "", keywords := "",
    timeout := 10, currentStatus := "unknown", consecutiveFails := 0,
    lastCheckAt := none }

/-- The empty record store. -/
def emptyDB : DB := { incidents := [], results := [], nextIncidentID := 1 }

/-- The sample monitor after three straight failures: declared down. -/
def sampleMonDown : Monitor :=
  { sampleMon with currentStatus := "down", consecutiveFails := 3 }

/-- A store holding the single active incident of the down monitor. -/
def sampleDBDown : DB :=
  { incidents := [{ id := 7, monitorID := 1, startedAt := 100, resolvedAt := none,
                    errorMessage := "boom", notified := false, recoveryNotified := false }],
    results := [], nextIncidentID := 8 }

/-- A generic failing probe outcome at transport level. -/
def failProbe : Outcome := Outcome.fail 0 0 "err"

/-- A generic succeeding probe outcome. -/
def okProbe : Outcome := Outcome.ok 200 10

/-! ## Helper lemmas -/

lemma active_of_unresolved (db : DB) (mid : Nat)
    (h : ∃ i ∈ db.incidents, i.monitorID = mid ∧ i.resolvedAt = none) :
    ∃ j, db.getActiveIncident mid = some j ∧ j.monitorID = mid ∧ j.resolvedAt = none := by
  unfold DB.getActiveIncident
  cases hf : db.incidents.find? (fun i => i.monitorID == mid && i.resolvedAt.isNone) with
  | none =>
    exfalso
    obtain ⟨i, hmem, h1, h2⟩ := h
    have := List.find?_eq_none.mp hf i hmem
    simp [h1, h2] at this
  | some j =>
    have hp := List.find?_some hf
    simp only [Bool.and_eq_true, beq_iff_eq, Option.isNone_iff_eq_none] at hp
    exact ⟨j, rfl, hp.1, hp.2⟩

lemma parse_foldl_eq (parts : List (List Char)) (acc : List Int) :
    parts.foldl (fun acc p =>
      let code := sscanfD (trimChars p)
      if 0 < code then acc ++ [code] else acc) acc
    = acc ++ (parts.map (fun p => sscanfD (trimChars p))).filter (fun c => decide (0 < c)) := by
  induction parts generalizing acc with
  | nil => simp
  | cons h t ih =>
    simp only [List.foldl_cons, List.map_cons, List.filter_cons]
    by_cases hc : 0 < sscanfD (trimChars h)
    · rw [ih]
      simp [hc]
    · rw [ih]
      simp [hc]

lemma findMissingKeyword_none_iff (ks : List String) (body : String) :
    findMissingKeyword ks body = none ↔
      ∀ k ∈ ks, caseInsensitiveContains body k = true := by
  induction ks with
  | nil => simp [findMissingKeyword]
  | cons k rest ih =>
    by_cases h : caseInsensitiveContains body k = true
    · simp [findMissingKeyword, h, ih]
    · simp [findMissingKeyword, h]

lemma findMissingKeyword_first (pre : List String) (k : String) (post : List String)
    (body : String)
    (hpre : ∀ k' ∈ pre, caseInsensitiveContains body k' = true)
    (hk : caseInsensitiveContains body k = false) :
    findMissingKeyword (pre ++ k :: post) body = some k := by
  induction pre with
  | nil => simp [findMissingKeyword, hk]
  | cons p rest ih =>
    have hp : caseInsensitiveContains body p = true :=
      hpre p (List.mem_cons_self p rest)
    simp only [List.cons_append, findMissingKeyword, hp, if_true]
    exact ih (fun k' hk' => hpre k' (List.mem_cons_of_mem p hk'))

lemma trayEvaluate_incidents (db : DB) (m : Monitor) (o : Outcome) (now : Nat) :
    (trayEvaluate db m o now).1.incidents = db.incidents := by
  cases o <;> simp only [trayEvaluate] <;> (repeat' split) <;> rfl

lemma getActive_createCheckResult (db : DB) (r : CheckResult) (mid : Nat) :
    (db.createCheckResult r).getActiveIncident mid = db.getActiveIncident mid := rfl

lemma createCheckResult_incidents (db : DB) (r : CheckResult) :
    (db.createCheckResult r).incidents = db.incidents := rfl

lemma recordSuccess_not_down (cs : CheckerMonState) (db : DB) (m : Monitor)
    (sc rt : Int) (now : Nat) (h : m.currentStatus ≠ "down") :
    recordSuccess cs db m sc rt now =
      { checker := cs,
        db := db.createCheckResult
          { monitorID := m.id, statusCode := sc, responseTime := rt,
            success := true, errorMessage := "", createdAt := now },
        monitor := { m with currentStatus := "up", consecutiveFails := 0,
                            lastCheckAt := some now },
        events := [] } := by
  simp only [recordSuccess, if_neg h]

lemma downTimes_append (a b : List (Nat × Notification)) :
    downTimes (a ++ b) = downTimes a ++ downTimes b := by
  simp [downTimes]

lemma evalOutcome_step (cs : CheckerMonState) (db : DB) (m : Monitor)
    (o : Outcome) (t : Nat) :
    (downTimes (evalOutcome cs db m o t).events = [] ∧
      (evalOutcome cs db m o t).checker = cs) ∨
    (downTimes (evalOutcome cs db m o t).events = [t] ∧
      (evalOutcome cs db m o t).checker = { lastNotified := some t } ∧
      cooldownOk cs.lastNotified t = true) := by
  cases o with
  | ok sc rt =>
    simp only [evalOutcome, recordSuccess]
    repeat' split
    all_goals exact Or.inl ⟨by simp [downTimes], rfl⟩
  | fail sc rt e =>
    simp only [evalOutcome, recordFailure]
    repeat' split
    all_goals
      first
        | exact Or.inl ⟨by simp [downTimes], rfl⟩
        | (rename_i hcd
           exact Or.inr ⟨by simp [downTimes], rfl, hcd⟩)

lemma runChecker_cooldown_aux (l : List (Nat × Outcome)) :
    ∀ (cs : CheckerMonState) (db : DB) (m : Monitor),
      List.Pairwise (fun a b => a ≤ b) (l.map Prod.fst) →
      (∀ u, cs.lastNotified = some u → ∀ p ∈ l, u ≤ p.1) →
      List.Chain' (fun a b => a + NotificationCooldown ≤ b)
        (downTimes (runChecker (cs, db, m) l).2) ∧
      (∀ u, cs.lastNotified = some u →
        ∀ v ∈ downTimes (runChecker (cs, db, m) l).2,
          u + NotificationCooldown ≤ v) := by
  induction l with
  | nil =>
    intro cs db m _ _
    constructor
    · simp [runChecker, downTimes]
    · intro u _ v hv
      simp [runChecker, downTimes] at hv
  | cons p rest ih =>
    intro cs db m hmono hlast
    obtain ⟨t, o⟩ := p
    have hmono' : List.Pairwise (fun a b => a ≤ b) (rest.map Prod.fst) :=
      (List.pairwise_cons.mp hmono).2
    have hts : ∀ q ∈ rest, t ≤ q.1 := by
      intro q hq
      exact (List.pairwise_cons.mp hmono).1 q.1 (List.mem_map_of_mem Prod.fst hq)
    simp only [runChecker, downTimes_append]
    rcases evalOutcome_step cs db m o t with ⟨hev, hcs⟩ | ⟨hev, hcs, hcd⟩
    · have hlast' : ∀ u, (evalOutcome cs db m o t).checker.lastNotified = some u →
          ∀ q ∈ rest, u ≤ q.1 := by
        rw [hcs]
        intro u hu q hq
        exact hlast u hu q (List.mem_cons_of_mem _ hq)
      obtain ⟨ih1, ih2⟩ := ih (evalOutcome cs db m o t).checker
        (evalOutcome cs db m o t).db (evalOutcome cs db m o t).monitor hmono' hlast'
      rw [hev]
      constructor
      · simpa using ih1
      · intro u hu v hv
        have hu' : (evalOutcome cs db m o t).checker.lastNotified = some u := by
          rw [hcs]; exact hu
        exact ih2 u hu' v (by simpa using hv)
    · have hlast' : ∀ u, (evalOutcome cs db m o t).checker.lastNotified = some u →
          ∀ q ∈ rest, u ≤ q.1 := by
        rw [hcs]
        intro u hu q hq
        have htu : t = u := by simpa using hu
        rw [← htu]
        exact hts q hq
      obtain ⟨ih1, ih2⟩ := ih (evalOutcome cs db m o t).checker
        (evalOutcome cs db m o t).db (evalOutcome cs db m o t).monitor hmono' hlast'
      rw [hev]
      have hsome : (evalOutcome cs db m o t).checker.lastNotified = some t := by
        rw [hcs]
      constructor
      · rw [List.singleton_append, List.chain'_cons']
        refine ⟨?_, ih1⟩
        intro y hy
        exact ih2 t hsome y (List.mem_of_mem_head? hy)
      · intro u hu v hv
        have hut : u + NotificationCooldown ≤ t := by
          rw [hu] at hcd
          simp only [cooldownOk, NotificationCooldown, decide_eq_true_eq] at hcd
          simp only [NotificationCooldown]
          omega
        rw [List.singleton_append] at hv
        rcases List.mem_cons.mp hv with hv | hv
        · rw [hv]
          exact hut
        · have := ih2 t hsome v hv
          omega

/-! ## Claim theorems -/

/-- C5 counterexample: the claim asserts every non-positive timeout is
normalized to the default (10 s), but performCheck substitutes the
default only when the configured timeout is exactly 0; the negative
timeout -5 passes through unchanged. -/
theorem negative_timeout_not_defaulted :
    (-5 : Int) ≤ 0 ∧ effectiveTimeout (-5) ≠ DefaultTimeout := by decide

/-- C5 (amended): a non-positive check interval yields the default
interval (60 s); an empty expected-codes string yields the single code
200; the timeout is default-substituted only when it is exactly 0 (10 s),
and every other value, negative values included, is used as configured;
no value is rejected. -/
theorem config_normalization :
    (∀ i : Int, i ≤ 0 → effectiveCheckInterval i = DefaultCheckInterval) ∧
    effectiveTimeout 0 = DefaultTimeout ∧
    (∀ t : Int, t ≠ 0 → effectiveTimeout t = t) ∧
    ParseExpectedCodes "" = [200] := by
  refine ⟨?_, rfl, ?_, rfl⟩
  · intro i hi
    unfold effectiveCheckInterval
    rw [if_pos (by omega)]
  · intro t ht
    unfold effectiveTimeout
    rw [if_neg ht]

/-- Witness for config_normalization at concrete inputs. -/
theorem config_normalization_witness :
    effectiveCheckInterval (-7) = DefaultCheckInterval ∧ effectiveTimeout (-7) = -7 :=
  ⟨config_normalization.1 (-7) (by decide), config_normalization.2.2.1 (-7) (by decide)⟩

/-- C6 counterexample: the claim asserts an input whose entries are all
non-numeric returns the default set, but Sscanf keeps the leading
integer of an entry, so the non-numeric entry 12abc yields the code 12
rather than the default 200. -/
theorem parse_codes_numeric_prefix_entry :
    ParseExpectedCodes "12abc" = [12] ∧ ParseExpectedCodes "12abc" ≠ [200] := by decide

/-- C6 (amended): the input 200,201 returns exactly those two codes; the
empty string returns the single code 200; whitespace around entries is
ignored; in general each comma-separated entry is trimmed and scanned as
an optional sign plus leading digits (trailing junk ignored, failed scans
count 0), the positive scanned values are kept in input order, and when
none survive the single code 200 is returned. -/
theorem parse_expected_codes_spec :
    ParseExpectedCodes "200,201" = [200, 201] ∧
    ParseExpectedCodes "" = [200] ∧
    ParseExpectedCodes " 200 ,  201 " = [200, 201] ∧
    ∀ codes : String, codes ≠ "" →
      ParseExpectedCodes codes =
        (let vals := ((splitOnChar ',' codes.toList).map
            (fun p => sscanfD (trimChars p))).filter (fun c => decide (0 < c))
         if vals = [] then [200] else vals) := by
  refine ⟨by decide, rfl, by decide, ?_⟩
  intro codes h
  simp only [ParseExpectedCodes, if_neg h]
  rw [parse_foldl_eq]
  simp

/-- Witness for parse_expected_codes_spec at a concrete input. -/
theorem parse_expected_codes_spec_witness :
    ParseExpectedCodes "301" =
      (let vals := ((splitOnChar ',' "301".toList).map
          (fun p => sscanfD (trimChars p))).filter (fun c => decide (0 < c))
       if vals = [] then [200] else vals) :=
  parse_expected_codes_spec.2.2.2 "301" (by decide)

/-- C7: keyword matching is case-insensitive and conjunctive: the keyword
phase of performCheck passes exactly when every parsed keyword occurs in
the body under case-insensitive substring search; the first keyword that
does not match is the one named in the failure; and with keywords ok and
ready, a body containing OK but not ready fails naming ready. -/
theorem keyword_matching_conjunctive :
    (∀ (ks : List String) (body : String),
      findMissingKeyword ks body = none ↔
        ∀ k ∈ ks, caseInsensitiveContains body k = true) ∧
    (∀ (pre : List String) (k : String) (post : List String) (body : String),
      (∀ k' ∈ pre, caseInsensitiveContains body k' = true) →
      caseInsensitiveContains body k = false →
      findMissingKeyword (pre ++ k :: post) body = some k) ∧
    findMissingKeyword (ParseKeywords "ok,ready") "Service is OK" = some "ready" :=
  ⟨findMissingKeyword_none_iff, findMissingKeyword_first, by decide⟩

/-- Witness for keyword_matching_conjunctive at concrete inputs. -/
theorem keyword_matching_conjunctive_witness :
    findMissingKeyword (["ok"] ++ "ready" :: []) "Service is OK" = some "ready" :=
  keyword_matching_conjunctive.2.1 ["ok"] "ready" [] "Service is OK"
    (by decide) (by decide)

/-- C10: the tray check loop never creates, updates or resolves an
Incident: over any run of the secondary surface, whatever the outcomes
and status flips, the incident table is untouched. -/
theorem tray_never_touches_incidents :
    ∀ (db : DB) (m : Monitor) (l : List (Nat × Outcome)),
      ((runTray (db, m) l).1).1.incidents = db.incidents := by
  intro db m l
  induction l generalizing db m with
  | nil => rfl
  | cons p rest ih =>
    obtain ⟨t, o⟩ := p
    simp only [runTray]
    rw [ih]
    exact trayEvaluate_incidents db m o t

/-- C2 is violated by the code: after the run fail, fail, fail, success,
fail, fail, fail from a fresh monitor, the store holds TWO unresolved
incidents for it. The recovery path resolves the incident with a column
update but then saves the stale in-memory row (resolvedAt still null)
over it, so the resolution is lost and the next down-crossing opens a
second active incident. -/
theorem checker_run_two_unresolved_incidents :
    (((runChecker ({ lastNotified := none }, emptyDB, sampleMon)
      [(0, failProbe), (1, failProbe), (2, failProbe), (3, okProbe),
       (4, failProbe), (5, failProbe), (6, failProbe)]).1.2.1.incidents).filter
      (fun i => i.monitorID == 1 && i.resolvedAt.isNone)).length = 2 := by decide

/-- C3 is violated by the code: evaluating the first success on a down
monitor with an active, not-yet-notified incident emits the one recovery
notification, sets status up and resets the failure count, but leaves
the incident UNRESOLVED: UpdateIncident (a full-row save of the fetched
struct, whose resolvedAt is still null) overwrites the resolution that
ResolveIncident had just written. -/
theorem recovery_leaves_incident_unresolved :
    (recordSuccess { lastNotified := none } sampleDBDown sampleMonDown 200 50 200).db.incidents =
      [{ id := 7, monitorID := 1, startedAt := 100, resolvedAt := none,
         errorMessage := "boom", notified := false, recoveryNotified := true }] ∧
    (recordSuccess { lastNotified := none } sampleDBDown sampleMonDown 200 50 200).events =
      [(200, Notification.recovery "site" "http://x")] ∧
    (recordSuccess { lastNotified := none } sampleDBDown sampleMonDown 200 50 200).monitor.currentStatus = "up" ∧
    (recordSuccess { lastNotified := none } sampleDBDown sampleMonDown 200 50 200).monitor.consecutiveFails = 0 := by
  decide

/-- C4 counterexample: the tray check loop has no cooldown gate, so on
the secondary surface two down notifications for one monitor can be
emitted 120 s apart, well inside the 300 s window: down at 60, recovery
at 90, down again at 180. -/
theorem tray_notifications_within_cooldown :
    downTimes (runTray (emptyDB, { sampleMon with currentStatus := "up" })
      [(0, failProbe), (30, failProbe), (60, failProbe), (90, okProbe),
       (120, failProbe), (150, failProbe), (180, failProbe)]).2 = [60, 180] ∧
    180 - 60 < NotificationCooldown := by decide

/-- C8: evaluating a success outcome when the monitor is not down (up or
unknown) performs no incident creation, update or resolution, emits no
notification and leaves the scheduler state alone; the monitor-field
effects are status up, failure count 0 and a refreshed last-check
timestamp, and a repeated evaluation has the same effect apart from the
refreshed timestamp. -/
theorem success_noop_when_not_down (cs : CheckerMonState) (db : DB) (m : Monitor)
    (sc rt sc2 rt2 : Int) (now now2 : Nat) (h : m.currentStatus ≠ "down") :
    (recordSuccess cs db m sc rt now).db.incidents = db.incidents ∧
    (recordSuccess cs db m sc rt now).events = [] ∧
    (recordSuccess cs db m sc rt now).checker = cs ∧
    (recordSuccess cs db m sc rt now).monitor =
      { m with currentStatus := "up", consecutiveFails := 0, lastCheckAt := some now } ∧
    (recordSuccess (recordSuccess cs db m sc rt now).checker
        (recordSuccess cs db m sc rt now).db
        (recordSuccess cs db m sc rt now).monitor sc2 rt2 now2).db.incidents = db.incidents ∧
    (recordSuccess (recordSuccess cs db m sc rt now).checker
        (recordSuccess cs db m sc rt now).db
        (recordSuccess cs db m sc rt now).monitor sc2 rt2 now2).events = [] ∧
    (recordSuccess (recordSuccess cs db m sc rt now).checker
        (recordSuccess cs db m sc rt now).db
        (recordSuccess cs db m sc rt now).monitor sc2 rt2 now2).monitor =
      { m with currentStatus := "up", consecutiveFails := 0, lastCheckAt := some now2 } := by
  rw [recordSuccess_not_down cs db m sc rt now h]
  rw [recordSuccess_not_down cs
    (db.createCheckResult
      { monitorID := m.id, statusCode := sc, responseTime := rt,
        success := true, errorMessage := "", createdAt := now })
    { m with currentStatus := "up", consecutiveFails := 0, lastCheckAt := some now }
    sc2 rt2 now2 (by simp)]
  exact ⟨rfl, rfl, rfl, rfl, rfl, rfl, rfl⟩

/-- Witness for success_noop_when_not_down at concrete inputs. -/
theorem success_noop_when_not_down_witness :
    (recordSuccess { lastNotified := none } emptyDB sampleMon 200 10 0).db.incidents =
      emptyDB.incidents ∧
    (recordSuccess { lastNotified := none } emptyDB sampleMon 200 10 0).events = [] ∧
    (recordSuccess { lastNotified := none } emptyDB sampleMon 200 10 0).checker =
      { lastNotified := none } ∧
    (recordSuccess { lastNotified := none } emptyDB sampleMon 200 10 0).monitor =
      { sampleMon with currentStatus := "up", consecutiveFails := 0,
                       lastCheckAt := some 0 } ∧
    (recordSuccess (recordSuccess { lastNotified := none } emptyDB sampleMon 200 10 0).checker
        (recordSuccess { lastNotified := none } emptyDB sampleMon 200 10 0).db
        (recordSuccess { lastNotified := none } emptyDB sampleMon 200 10 0).monitor
        200 12 60).db.incidents = emptyDB.incidents ∧
    (recordSuccess (recordSuccess { lastNotified := none } emptyDB sampleMon 200 10 0).checker
        (recordSuccess { lastNotified := none } emptyDB sampleMon 200 10 0).db
        (recordSuccess { lastNotified := none } emptyDB sampleMon 200 10 0).monitor
        200 12 60).events = [] ∧
    (recordSuccess (recordSuccess { lastNotified := none } emptyDB sampleMon 200 10 0).checker
        (recordSuccess { lastNotified := none } emptyDB sampleMon 200 10 0).db
        (recordSuccess { lastNotified := none } emptyDB sampleMon 200 10 0).monitor
        200 12 60).monitor =
      { sampleMon with currentStatus := "up", consecutiveFails := 0,
                       lastCheckAt := some 60 } :=
  success_noop_when_not_down { lastNotified := none } emptyDB sampleMon
    200 10 200 12 0 60 (by decide)

/-- C1: for a reachable monitor state, a failure evaluation drives the
status to down exactly when the incremented consecutive-failure count
reaches the threshold; exactly one incident is created at that crossing
and none otherwise; a failing tick while already down rewrites the active
incident's error text instead of creating one; and below the threshold
neither the status nor the incident table changes. -/
theorem failure_threshold_crossing (cs : CheckerMonState) (db : DB) (m : Monitor)
    (sc : Int) (e : String) (now : Nat) (h : Inv db m) :
    ((recordFailure cs db m sc e now).monitor.currentStatus = "down" ↔
      DefaultMaxFailures ≤ m.consecutiveFails + 1) ∧
    ((recordFailure cs db m sc e now).db.incidents.length =
      db.incidents.length +
        (if m.currentStatus ≠ "down" ∧ DefaultMaxFailures ≤ m.consecutiveFails + 1
         then 1 else 0)) ∧
    (m.currentStatus = "down" →
      ∃ i, db.getActiveIncident m.id = some i ∧
        (recordFailure cs db m sc e now).db.incidents =
          db.incidents.map
            (fun j => if j.id == i.id then { i with errorMessage := e } else j)) ∧
    (m.consecutiveFails + 1 < DefaultMaxFailures →
      (recordFailure cs db m sc e now).monitor.currentStatus = m.currentStatus ∧
      (recordFailure cs db m sc e now).db.incidents = db.incidents) := by
  obtain ⟨hIff, hEx⟩ := h
  have hMF : DefaultMaxFailures = 3 := rfl
  by_cases hge : DefaultMaxFailures ≤ m.consecutiveFails + 1
  · by_cases hdown : m.currentStatus = "down"
    · obtain ⟨j, hact, hjm, hjr⟩ := active_of_unresolved db m.id (hEx hdown)
      have hres : (recordFailure cs db m sc e now).db.incidents =
          db.incidents.map
            (fun jj => if jj.id == j.id then { j with errorMessage := e } else jj) ∧
          (recordFailure cs db m sc e now).monitor.currentStatus = "down" := by
        cases hcd : cooldownOk cs.lastNotified now <;>
          simp [recordFailure, hge, hdown, getActive_createCheckResult, hact, hcd,
            DB.updateIncident, createCheckResult_incidents]
      refine ⟨?_, ?_, ?_, ?_⟩
      · exact iff_of_true hres.2 hge
      · rw [hres.1]
        simp [hdown, List.length_map]
      · intro _
        exact ⟨j, hact, hres.1⟩
      · intro hlt
        exfalso
        rw [hMF] at hge hlt
        omega
    · have hres : (recordFailure cs db m sc e now).db.incidents =
          db.incidents ++
            [{ id := db.nextIncidentID, monitorID := m.id, startedAt := now,
               resolvedAt := none, errorMessage := e, notified := false,
               recoveryNotified := false }] ∧
          (recordFailure cs db m sc e now).monitor.currentStatus = "down" := by
        cases hcd : cooldownOk cs.lastNotified now <;>
          simp [recordFailure, hge, hdown, hcd, DB.createIncident, DB.createCheckResult]
      refine ⟨?_, ?_, ?_, ?_⟩
      · exact iff_of_true hres.2 hge
      · rw [hres.1]
        simp [hdown, hge]
      · intro hd
        exact absurd hd hdown
      · intro hlt
        exfalso
        rw [hMF] at hge hlt
        omega
  · have hnd : ¬m.currentStatus = "down" := by
      intro hd
      have := hIff.mp hd
      rw [hMF] at this hge
      omega
    have hres : (recordFailure cs db m sc e now).db.incidents = db.incidents ∧
        (recordFailure cs db m sc e now).monitor.currentStatus = m.currentStatus := by
      simp [recordFailure, hge, DB.createCheckResult]
    refine ⟨?_, ?_, ?_, ?_⟩
    · rw [hres.2]
      exact iff_of_false hnd hge
    · rw [hres.1]
      simp [hge]
    · intro hd
      exact absurd hd hnd
    · intro _
      exact ⟨hres.2, hres.1⟩

/-- Witness for failure_threshold_crossing at a concrete reachable down
state. -/
theorem failure_threshold_crossing_witness :
    ((recordFailure { lastNotified := none } sampleDBDown sampleMonDown 0 "e2" 300).monitor.currentStatus = "down" ↔
      DefaultMaxFailures ≤ sampleMonDown.consecutiveFails + 1) ∧
    ((recordFailure { lastNotified := none } sampleDBDown sampleMonDown 0 "e2" 300).db.incidents.length =
      sampleDBDown.incidents.length +
        (if sampleMonDown.currentStatus ≠ "down" ∧
            DefaultMaxFailures ≤ sampleMonDown.consecutiveFails + 1
         then 1 else 0)) ∧
    (sampleMonDown.currentStatus = "down" →
      ∃ i, sampleDBDown.getActiveIncident sampleMonDown.id = some i ∧
        (recordFailure { lastNotified := none } sampleDBDown sampleMonDown 0 "e2" 300).db.incidents =
          sampleDBDown.incidents.map
            (fun j => if j.id == i.id then { i with errorMessage := "e2" } else j)) ∧
    (sampleMonDown.consecutiveFails + 1 < DefaultMaxFailures →
      (recordFailure { lastNotified := none } sampleDBDown sampleMonDown 0 "e2" 300).monitor.currentStatus =
        sampleMonDown.currentStatus ∧
      (recordFailure { lastNotified := none } sampleDBDown sampleMonDown 0 "e2" 300).db.incidents =
        sampleDBDown.incidents) :=
  failure_threshold_crossing { lastNotified := none } sampleDBDown sampleMonDown
    0 "e2" 300 ⟨by decide, by decide⟩

/-- C4 counterexample is tray_notifications_within_cooldown below. This
is C4 (amended): the cooldown guarantee does hold for the primary checker
loop in isolation: over any chronologically ordered run for one monitor,
any two emitted down notifications are at least the cooldown window
(300 s) apart; the tray loop provides no such guarantee. -/
theorem checker_down_notifications_spaced (db : DB) (m : Monitor)
    (l : List (Nat × Outcome))
    (hmono : List.Pairwise (fun a b => a ≤ b) (l.map Prod.fst)) :
    List.Pairwise (fun a b => a + NotificationCooldown ≤ b)
      (downTimes (runChecker ({ lastNotified := none }, db, m) l).2) := by
  have h := runChecker_cooldown_aux l { lastNotified := none } db m hmono
    (by intro u hu; simp at hu)
  haveI : IsTrans Nat (fun a b => a + NotificationCooldown ≤ b) :=
    ⟨fun a b c h1 h2 => by omega⟩
  exact List.chain'_iff_pairwise.mp h.1

/-- Witness for checker_down_notifications_spaced on a concrete run. -/
theorem checker_down_notifications_spaced_witness :
    List.Pairwise (fun a b => a + NotificationCooldown ≤ b)
      (downTimes (runChecker ({ lastNotified := none }, emptyDB, sampleMon)
        [(0, failProbe), (1, failProbe), (2, failProbe)]).2) :=
  checker_down_notifications_spaced emptyDB sampleMon
    [(0, failProbe), (1, failProbe), (2, failProbe)] (by decide)

/-- C9 counterexample: RemoveMonitor only closes the task's stop channel
and returns without joining the task, so a check already in flight when
remove completes still appends its CheckResult afterwards: beginCheck,
then removeDone (no record yet), then the in-flight check lands a record
for the removed id. -/
theorem remove_does_not_bar_inflight_record :
    schedStep ⟨[(1, Phase.idle)], [], false, false, []⟩ (SchedEv.beginCheck 1) =
      some ⟨[(1, Phase.busy)], [], false, false, []⟩ ∧
    schedStep ⟨[(1, Phase.busy)], [], false, false, []⟩ (SchedEv.removeDone 1) =
      some ⟨[(1, Phase.busy)], [1], false, false, []⟩ ∧
    schedStep ⟨[(1, Phase.busy)], [1], false, false, []⟩ (SchedEv.endCheck 1 5) =
      some ⟨[(1, Phase.idle)], [1], false, false, [(1, 5)]⟩ := by decide

lemma phaseOf_mem (s : Sched) (id : Nat) (ph : Phase)
    (h : phaseOf s id = some ph) : ∃ p ∈ s.phases, p.2 = ph := by
  unfold phaseOf at h
  cases hf : s.phases.find? (fun p => p.1 == id) with
  | none => rw [hf] at h; simp at h
  | some q =>
    rw [hf] at h
    simp only [Option.map_some', Option.some.injEq] at h
    exact ⟨q, List.mem_of_find?_eq_some hf, h⟩

lemma schedStep_stop (s : Sched) (e : SchedEv) (s2 : Sched)
    (hstep : schedStep s e = some s2) (hinv : StopInv s) :
    StopInv s2 ∧ (s.stopReturned = true → s2.records = s.records) ∧
    (s.stopReturned = true → s2.stopReturned = true) := by
  cases e with
  | beginCheck id =>
    simp only [schedStep] at hstep
    split at hstep
    · injection hstep with h2
      subst h2
      refine ⟨?_, fun _ => rfl, fun hr => hr⟩
      intro hret p hp
      exfalso
      rename_i hc
      obtain ⟨q, hq, hq2⟩ := phaseOf_mem s id Phase.idle hc
      have := hinv hret q hq
      simp [hq2] at this
    · exact Option.noConfusion hstep
  | endCheck id t =>
    simp only [schedStep] at hstep
    split at hstep
    · injection hstep with h2
      subst h2
      rename_i hc
      have hbusy : ∀ hret : s.stopReturned = true, False := by
        intro hret
        obtain ⟨q, hq, hq2⟩ := phaseOf_mem s id Phase.busy hc
        have := hinv hret q hq
        simp [hq2] at this
      refine ⟨?_, ?_, fun hr => hr⟩
      · intro hret
        exact absurd hret (fun hret => hbusy hret)
      · intro hret
        exact absurd hret (fun hret => hbusy hret)
    · exact Option.noConfusion hstep
  | taskExit id =>
    simp only [schedStep] at hstep
    split at hstep
    · injection hstep with h2
      subst h2
      refine ⟨?_, fun _ => rfl, fun hr => hr⟩
      intro hret p hp
      exfalso
      rename_i hc
      obtain ⟨q, hq, hq2⟩ := phaseOf_mem s id Phase.idle hc.1
      have := hinv hret q hq
      simp [hq2] at this
    · exact Option.noConfusion hstep
  | removeDone id =>
    simp only [schedStep] at hstep
    injection hstep with h2
    subst h2
    exact ⟨fun hret p hp => hinv hret p hp, fun _ => rfl, fun hr => hr⟩
  | stopSignal =>
    simp only [schedStep] at hstep
    injection hstep with h2
    subst h2
    exact ⟨fun hret p hp => hinv hret p hp, fun _ => rfl, fun hr => hr⟩
  | stopDone =>
    simp only [schedStep] at hstep
    split at hstep
    · injection hstep with h2
      subst h2
      rename_i hc
      exact ⟨fun _ p hp => hc.2 p hp, fun _ => rfl, fun _ => rfl⟩
    · exact Option.noConfusion hstep

/-- C9 (amended): once stop has returned from its WaitGroup barrier, no
CheckResult is ever recorded again by any task of the scheduler; the
remove operation gives no such guarantee, since it returns without
waiting for the signalled task. -/
theorem stop_blocks_records (s : Sched) (l : List SchedEv) (s2 : Sched)
    (hinv : StopInv s) (hret : s.stopReturned = true)
    (hrun : schedRun s l = some s2) :
    s2.records = s.records := by
  induction l generalizing s with
  | nil =>
    simp only [schedRun] at hrun
    injection hrun with h2
    rw [h2]
  | cons e rest ih =>
    simp only [schedRun] at hrun
    cases hstep : schedStep s e with
    | none =>
      simp only [hstep] at hrun
      exact Option.noConfusion hrun
    | some sm =>
      simp only [hstep] at hrun
      obtain ⟨hinv2, hrec, hret2⟩ := schedStep_stop s e sm hstep hinv
      rw [ih sm hinv2 (hret2 hret) hrun]
      exact hrec hret

/-- Witness for stop_blocks_records on a concrete post-stop state and
event sequence. -/
theorem stop_blocks_records_witness :
    (⟨[(1, Phase.exited)], [2], true, true, [(1, 0)]⟩ : Sched).records =
      (⟨[(1, Phase.exited)], [], true, true, [(1, 0)]⟩ : Sched).records :=
  stop_blocks_records ⟨[(1, Phase.exited)], [], true, true, [(1, 0)]⟩
    [SchedEv.removeDone 2] ⟨[(1, Phase.exited)], [2], true, true, [(1, 0)]⟩
    (fun _ => by decide) rfl (by decide)

end Statping
